import Mathlib

/-!
# Airline reservation system: record store and seat bookkeeping

A shallow embedding of `Plane/plane.c`.

* The two data files are values: `flights.dat` is an `Option (List Flight)`,
  `reservations.dat` an `Option (List Passenger)`; `none` is a file that
  `fopen` cannot open for reading, `some rs` a file holding the records `rs`
  in storage order.  Opening `temp.dat` and writing a record always succeed.
* A `while (fread(..) == 1)` loop is a recursion over the list of records,
  its local variables are the accumulator arguments.
* A C `int` is an `Int`, and the one sum the program computes,
  `flight.availableSeats + delta`, is the 32-bit two's complement sum
  `wrapInt32 (availableSeats + delta)`: it is the integer sum whenever that
  fits an `int`, which is always the case for a seat count in `[0, 100]` and
  a `delta` of `1` or `-1`.
* A `float` fare is only stored and copied; it is an `Int` here, and the
  `-1.0f` of `getFlightFare` is `-1`.
* Text is a `String` whose characters stand for bytes.
* Terminal input is a parameter: what is typed at the prompts of one
  operation is a structure of values, a line that is left empty is `none`.
-/

namespace Plane

/-! ## Constants and records -/

def MAX_SEATS : Int := 100

def MAX_NAME_LEN : Nat := 49

def MAX_DEST_LEN : Nat := 49

def MAX_TIME_LEN : Nat := 9

def PNR_LEN : Nat := 9

/-- The `Passenger` struct. `isBooked` is the C `int`: nonzero is booked. -/
structure Passenger where
  name : String
  age : Int
  gender : Char
  seatNumber : Int
  pnr : String
  flightNumber : Int
  fare : Int
  paymentMethod : Int
  isBooked : Int
deriving DecidableEq

/-- The `Flight` struct. -/
structure Flight where
  flightNumber : Int
  destination : String
  departure : String
  time : String
  fare : Int
  availableSeats : Int
deriving DecidableEq

/-- The persistent state: the contents of `FLIGHT_FILE` and `RESERVATION_FILE`. -/
structure State where
  flights : Option (List Flight)
  reservations : Option (List Passenger)
deriving DecidableEq

/-- The value a 32-bit two's complement `int` keeps of an integer. -/
def wrapInt32 (x : Int) : Int :=
  (x + 2147483648) % 4294967296 - 2147483648

/-- The records of a data file; a file that cannot be opened has none. -/
def records {α : Type} (file : Option (List α)) : List α :=
  file.getD []

/-! ## Utility functions -/

/-- What `safeStringInput(buffer, maxLen, ..)` leaves in `buffer` when `line`
is typed: `fgets` reads at most `maxLen` characters of the line. -/
def safeStringInput (maxLen : Nat) (line : String) : String :=
  String.mk (line.data.take maxLen)

/-- The value `safeIntInput(prompt, min, max)` returns when `value` is what is
entered: the loop repeats the prompt for a value outside `[min, max]`, so
such a value is never returned (`none`). -/
def safeIntInput (min max value : Int) : Option Int :=
  if value ≥ min ∧ value ≤ max then some value else none

/-- The conversion `%0<width>d` of `printf` for a value that is not negative:
the decimal digits, padded on the left with zeros up to `width`. -/
def formatZeroPadded (width value : Nat) : List Char :=
  let digits := Nat.toDigits 10 value
  List.replicate (width - digits.length) '0' ++ digits

/-- The string `generatePNR` stores: `snprintf` with size `PNR_LEN + 1` keeps
the first `PNR_LEN` characters of the formatted text. `tm_year`, `tm_mon`,
`tm_mday` are the fields of `localtime`, `rnd` is the value of `rand()`. -/
def generatePNR (tm_year tm_mon tm_mday rnd : Nat) : String :=
  let randomNum := rnd % 10000
  String.mk ((formatZeroPadded 2 (tm_year % 100) ++ formatZeroPadded 2 (tm_mon + 1)
    ++ formatZeroPadded 2 tm_mday ++ formatZeroPadded 4 randomNum).take PNR_LEN)

/-! ## Flight management -/

/-- The scan of `isFlightValid`. -/
def isFlightValidLoop (flightNumber : Int) : List Flight → Bool
  | [] => false
  | flight :: rest =>
    if flight.flightNumber = flightNumber ∧ flight.availableSeats > 0 then true
    else isFlightValidLoop flightNumber rest

/-- Function `isFlightValid`: a flight with this number and a free seat is on file. -/
def isFlightValid (file : Option (List Flight)) (flightNumber : Int) : Bool :=
  match file with
  | none => false
  | some fs => isFlightValidLoop flightNumber fs

/-- The scan of `getFlightFare`, started with `fare = -1.0f`. -/
def getFlightFareLoop (flightNumber : Int) : List Flight → Int
  | [] => -1
  | flight :: rest =>
    if flight.flightNumber = flightNumber then flight.fare
    else getFlightFareLoop flightNumber rest

/-- Function `getFlightFare`. -/
def getFlightFare (file : Option (List Flight)) (flightNumber : Int) : Int :=
  match file with
  | none => -1
  | some fs => getFlightFareLoop flightNumber fs

/-- The scan of `updateFlightSeats` over a file opened `r+b`: the first record
with the number is rewritten in place when the new count is in range, and the
scan stops there in either case. The result is `updated` and the file. -/
def updateFlightSeatsLoop (flightNumber delta : Int) : List Flight → Bool × List Flight
  | [] => (false, [])
  | flight :: rest =>
    if flight.flightNumber = flightNumber then
      let newSeats := wrapInt32 (flight.availableSeats + delta)
      if newSeats ≥ 0 ∧ newSeats ≤ MAX_SEATS then
        (true, { flight with availableSeats := newSeats } :: rest)
      else (false, flight :: rest)
    else
      let r := updateFlightSeatsLoop flightNumber delta rest
      (r.1, flight :: r.2)

/-- Function `updateFlightSeats`: the returned flag and the flight file afterwards. -/
def updateFlightSeats (file : Option (List Flight)) (flightNumber delta : Int) :
    Bool × Option (List Flight) :=
  match file with
  | none => (false, none)
  | some fs =>
    let r := updateFlightSeatsLoop flightNumber delta fs
    (r.1, some r.2)

/-- The scan of `isSeatAvailable`. -/
def isSeatAvailableLoop (flightNumber seatNum : Int) : List Passenger → Bool
  | [] => true
  | p :: rest =>
    if p.flightNumber = flightNumber ∧ p.seatNumber = seatNum ∧ p.isBooked ≠ 0 then false
    else isSeatAvailableLoop flightNumber seatNum rest

/-- Function `isSeatAvailable`. -/
def isSeatAvailable (file : Option (List Passenger)) (flightNumber seatNum : Int) : Bool :=
  if seatNum < 1 ∨ seatNum > MAX_SEATS then false
  else
    match file with
    | none => true
    | some rs => isSeatAvailableLoop flightNumber seatNum rs

/-! ## Reservation management -/

/-- What is entered at the prompts of `bookTicket`; `gender` is the first
character of the line typed at the gender prompt, `tm_year`, `tm_mon`,
`tm_mday` and `rnd` are what `localtime` and `rand()` give `generatePNR`. -/
structure BookInput where
  flightNumber : Int
  name : String
  age : Int
  gender : Char
  seatNumber : Int
  paymentMethod : Int
  tm_year : Nat
  tm_mon : Nat
  tm_mday : Nat
  rnd : Nat

/-- The gender prompt of `bookTicket`: the loop ends only on `M` or `F`. -/
def genderInput (c : Char) : Option Char :=
  if c.toUpper = 'M' ∨ c.toUpper = 'F' then some c.toUpper else none

/-- The record `bookTicket` writes: `memset` to zero, then the fields set. -/
def newPassenger (fare : Int) (flightNumber age : Int) (gender : Char) (seatNumber : Int)
    (paymentMethod : Int) (inp : BookInput) : Passenger :=
  { name := safeStringInput MAX_NAME_LEN inp.name
    age := age
    gender := gender
    seatNumber := seatNumber
    pnr := generatePNR inp.tm_year inp.tm_mon inp.tm_mday inp.rnd
    flightNumber := flightNumber
    fare := fare
    paymentMethod := paymentMethod
    isBooked := 1 }

/-- Function `bookTicket`. `none`: a prompt loop does not accept what is
entered, so the function does not get past it; `some st`: the function
returns and leaves the files as `st`. An invalid flight returns at once with
nothing changed; a refused seat is asked for again. The record is appended to
the reservation file (mode `ab` creates it), and the seat count is updated,
whether or not that update succeeds. -/
def bookTicket (st : State) (inp : BookInput) : Option State :=
  (safeIntInput 1 999999 inp.flightNumber).bind fun flightNumber =>
  if isFlightValid st.flights flightNumber = false then some st
  else
    (safeIntInput 1 120 inp.age).bind fun age =>
    (genderInput inp.gender).bind fun gender =>
    (safeIntInput 1 MAX_SEATS inp.seatNumber).bind fun seatNumber =>
    if isSeatAvailable st.reservations flightNumber seatNumber = false then none
    else
      (safeIntInput 1 4 inp.paymentMethod).bind fun paymentMethod =>
      let p := newPassenger (getFlightFare st.flights flightNumber) flightNumber age gender
        seatNumber paymentMethod inp
      some { flights := (updateFlightSeats st.flights flightNumber (-1)).2
             reservations := some (records st.reservations ++ [p]) }

/-- The local variables of the copy loop of `cancelReservation`. -/
structure CancelLoop where
  found : Bool
  cancelledFlight : Int
  temp : List Passenger

/-- The copy loop of `cancelReservation`: every record is written to the
temporary file, a booked record with the PNR after `isBooked` is cleared. -/
def cancelLoop (targetPNR : String) : List Passenger → CancelLoop → CancelLoop
  | [], s => s
  | p :: rest, s =>
    if p.pnr = targetPNR ∧ p.isBooked ≠ 0 then
      cancelLoop targetPNR rest
        { found := true
          cancelledFlight := p.flightNumber
          temp := s.temp ++ [{ p with isBooked := 0 }] }
    else
      cancelLoop targetPNR rest { s with temp := s.temp ++ [p] }

/-- Function `cancelReservation`: whether a booking was found, and the files
afterwards. -/
def cancelReservation (st : State) (targetPNR : String) : Bool × State :=
  match st.reservations with
  | none => (false, st)
  | some rs =>
    let s := cancelLoop targetPNR rs { found := false, cancelledFlight := -1, temp := [] }
    if s.found then
      let flights :=
        if s.cancelledFlight ≠ -1 then (updateFlightSeats st.flights s.cancelledFlight 1).2
        else st.flights
      (true, { flights := flights, reservations := some s.temp })
    else (false, st)

/-- What is entered at the six prompts shown for one record by
`modifyReservation`. `none`: the line is empty (or the input has ended) and
the field is kept; otherwise `name` is the line, `gender` its first
character, and `age`, `flight`, `seat`, `payment` its `atoi` value. -/
structure ModifyInput where
  name : Option String
  age : Option Int
  gender : Option Char
  flight : Option Int
  seat : Option Int
  payment : Option Int

/-- Every line left empty. -/
def ModifyInput.keep : ModifyInput :=
  { name := none, age := none, gender := none, flight := none, seat := none, payment := none }

/-- The variables the body for a matching record works on. -/
structure ModifyVars where
  p : Passenger
  oldFlight : Int
  oldSeat : Int

/-- Step "Modify name": `strncpy` of at most `MAX_NAME_LEN` characters. -/
def modifyName (input : Option String) (v : ModifyVars) : ModifyVars :=
  match input with
  | none => v
  | some line => { v with p := { v.p with name := safeStringInput MAX_NAME_LEN line } }

/-- Step "Modify age": the value is stored, and on a value out of range the
field is assigned `oldSeat`. -/
def modifyAge (input : Option Int) (v : ModifyVars) : ModifyVars :=
  match input with
  | none => v
  | some value =>
    let p1 := { v.p with age := value }
    if p1.age < 1 ∨ p1.age > 120 then { v with p := { p1 with age := v.oldSeat } }
    else { v with p := p1 }

/-- Step "Modify gender": the upper-cased character is stored; nothing is
done on a character other than `M` and `F`. -/
def modifyGender (input : Option Char) (v : ModifyVars) : ModifyVars :=
  match input with
  | none => v
  | some c => { v with p := { v.p with gender := c.toUpper } }

/-- Step "Modify flight". -/
def modifyFlight (st : State) (input : Option Int) (v : ModifyVars) : ModifyVars :=
  match input with
  | none => v
  | some newFlight =>
    if isFlightValid st.flights newFlight then
      { v with
        oldFlight := v.p.flightNumber
        p := { v.p with flightNumber := newFlight, fare := getFlightFare st.flights newFlight } }
    else v

/-- Step "Modify seat": the seat is checked on the flight the record now has,
against the reservation file as it is on disk. -/
def modifySeat (st : State) (input : Option Int) (v : ModifyVars) : ModifyVars :=
  match input with
  | none => v
  | some newSeat =>
    if isSeatAvailable st.reservations v.p.flightNumber newSeat then
      { v with oldSeat := v.p.seatNumber, p := { v.p with seatNumber := newSeat } }
    else v

/-- Step "Modify payment". -/
def modifyPayment (input : Option Int) (v : ModifyVars) : ModifyVars :=
  match input with
  | none => v
  | some newPayment =>
    if newPayment ≥ 1 ∧ newPayment ≤ 4 then
      { v with p := { v.p with paymentMethod := newPayment } }
    else v

/-- The body of the loop of `modifyReservation` for a matching record `p`. -/
def modifyRecord (st : State) (inp : ModifyInput) (p : Passenger) : ModifyVars :=
  let v0 : ModifyVars := { p := p, oldFlight := p.flightNumber, oldSeat := p.seatNumber }
  modifyPayment inp.payment
    (modifySeat st inp.seat
      (modifyFlight st inp.flight
        (modifyGender inp.gender
          (modifyAge inp.age
            (modifyName inp.name v0)))))

/-- The local variables of the copy loop of `modifyReservation`; `p` is the
record read last, as it was written to the temporary file. -/
structure ModifyLoop where
  found : Bool
  oldFlight : Int
  oldSeat : Int
  p : Passenger
  temp : List Passenger

/-- The copy loop of `modifyReservation`. Each matching record takes the next
six lines of input; neither data file changes while the loop runs. -/
def modifyLoop (st : State) (targetPNR : String) :
    List Passenger → List ModifyInput → ModifyLoop → ModifyLoop
  | [], _, s => s
  | p :: rest, inputs, s =>
    if p.pnr = targetPNR ∧ p.isBooked ≠ 0 then
      let v := modifyRecord st (inputs.headD ModifyInput.keep) p
      modifyLoop st targetPNR rest inputs.tail
        { found := true
          oldFlight := v.oldFlight
          oldSeat := v.oldSeat
          p := v.p
          temp := s.temp ++ [v.p] }
    else
      modifyLoop st targetPNR rest inputs { s with p := p, temp := s.temp ++ [p] }

/-- The contents of the variable `p` before the first `fread`; it is read
after the loop only when `found` is set, and then a record has been read. -/
def Passenger.unread : Passenger :=
  { name := "", age := 0, gender := 'M', seatNumber := 0, pnr := "", flightNumber := 0,
    fare := 0, paymentMethod := 0, isBooked := 0 }

/-- Function `modifyReservation`: whether a booking was found, and the files
afterwards. -/
def modifyReservation (st : State) (targetPNR : String) (inputs : List ModifyInput) :
    Bool × State :=
  match st.reservations with
  | none => (false, st)
  | some rs =>
    let s := modifyLoop st targetPNR rs inputs
      { found := false, oldFlight := -1, oldSeat := -1, p := Passenger.unread, temp := [] }
    if s.found then
      let flights :=
        if s.oldFlight ≠ s.p.flightNumber then
          (updateFlightSeats (updateFlightSeats st.flights s.oldFlight 1).2 s.p.flightNumber (-1)).2
        else st.flights
      (true, { flights := flights, reservations := some s.temp })
    else (false, st)

/-- The scan of `generateBill`: the first booked record with the PNR. -/
def generateBillLoop (targetPNR : String) : List Passenger → Option Passenger
  | [] => none
  | p :: rest =>
    if p.pnr = targetPNR ∧ p.isBooked ≠ 0 then some p
    else generateBillLoop targetPNR rest

/-- Function `generateBill`: the record whose ticket is printed, `none` when
the answer is "PNR not found or booking cancelled" or no file can be read. -/
def generateBill (file : Option (List Passenger)) (targetPNR : String) : Option Passenger :=
  match file with
  | none => none
  | some rs => generateBillLoop targetPNR rs

/-! ## Admin functions -/

/-- What is entered at the prompts of `addFlight`. -/
structure FlightInput where
  flightNumber : Int
  destination : String
  departure : String
  time : String
  fare : Int

/-- The duplicate check of `addFlight`. -/
def flightExistsLoop (flightNumber : Int) : List Flight → Bool
  | [] => false
  | temp :: rest =>
    if temp.flightNumber = flightNumber then true else flightExistsLoop flightNumber rest

/-- Function `addFlight`: whether the flight was added, and the flight file
afterwards. A file that cannot be read is not checked; mode `ab` creates it. -/
def addFlight (file : Option (List Flight)) (inp : FlightInput) : Bool × Option (List Flight) :=
  if flightExistsLoop inp.flightNumber (records file) then (false, file)
  else
    let flight : Flight :=
      { flightNumber := inp.flightNumber
        destination := safeStringInput MAX_DEST_LEN inp.destination
        departure := safeStringInput MAX_DEST_LEN inp.departure
        time := safeStringInput MAX_TIME_LEN inp.time
        fare := inp.fare
        availableSeats := MAX_SEATS }
    (true, some (records file ++ [flight]))

/-! ## Notions the properties are stated with -/

/-- A record is an active booking. -/
abbrev Passenger.active (p : Passenger) : Prop := p.isBooked ≠ 0

/-- No two active records on the same flight have the same seat number. -/
abbrev SeatsDistinct (rs : List Passenger) : Prop :=
  rs.Pairwise fun a b =>
    ¬ (a.active ∧ b.active ∧ a.flightNumber = b.flightNumber ∧ a.seatNumber = b.seatNumber)

/-- Every flight on file has a seat count in `[0, 100]`. -/
abbrev SeatsInRange (file : Option (List Flight)) : Prop :=
  ∀ fl ∈ records file, 0 ≤ fl.availableSeats ∧ fl.availableSeats ≤ 100

/-- No two flight records have the same number. -/
abbrev UniqueFlightNumbers (file : Option (List Flight)) : Prop :=
  ((records file).map Flight.flightNumber).Nodup

/-- A sequence of `updateFlightSeats(flightNumber, delta)` calls, each on the
file the one before left. -/
def updateFlightSeatsCalls (file : Option (List Flight)) (calls : List (Int × Int)) :
    Option (List Flight) :=
  calls.foldl (fun f call => (updateFlightSeats f call.1 call.2).2) file

/-- The seat count of flight `flightNumber`: that of the first record with the
number, which is the only one when flight numbers are unique. -/
def seatsOfLoop (flightNumber : Int) : List Flight → Option Int
  | [] => none
  | flight :: rest =>
    if flight.flightNumber = flightNumber then some flight.availableSeats
    else seatsOfLoop flightNumber rest

/-- The seat count of a flight on file, `none` when it is not on file. -/
def seatsOf (file : Option (List Flight)) (flightNumber : Int) : Option Int :=
  seatsOfLoop flightNumber (records file)

/-- The number of active bookings on a flight. -/
def activeBookings (file : Option (List Passenger)) (flightNumber : Int) : Nat :=
  ((records file).filter fun p => p.isBooked ≠ 0 ∧ p.flightNumber = flightNumber).length

/-- What the prompt loops of `bookTicket` accept: a flight number in
`[1, 999999]`, an age in `[1, 120]`, a gender that is `M` or `F` once
upper-cased, a payment method in `[1, 4]`. -/
abbrev PromptsAccept (inp : BookInput) : Prop :=
  (1 ≤ inp.flightNumber ∧ inp.flightNumber ≤ 999999) ∧ (1 ≤ inp.age ∧ inp.age ≤ 120) ∧
  (inp.gender.toUpper = 'M' ∨ inp.gender.toUpper = 'F') ∧
  (1 ≤ inp.paymentMethod ∧ inp.paymentMethod ≤ 4)

/-- A record as the copy loop of `cancelReservation` writes it. -/
def cancelRecord (targetPNR : String) (p : Passenger) : Passenger :=
  if p.pnr = targetPNR ∧ p.isBooked ≠ 0 then { p with isBooked := 0 } else p

/-- The records on file that carry a flight number. -/
def recordsNumbered (file : Option (List Flight)) (flightNumber : Int) : List Flight :=
  (records file).filter fun fl => fl.flightNumber = flightNumber

/-! ## States used as examples -/

/-- Flight 100 to Paris, fare 250, with a given seat count. -/
def flight100 (availableSeats : Int) : Flight :=
  { flightNumber := 100, destination := "Paris", departure := "NYC", time := "14:30",
    fare := 250, availableSeats := availableSeats }

/-- Flight 200 to Rome, fare 300, with a given seat count. -/
def flight200 (availableSeats : Int) : Flight :=
  { flightNumber := 200, destination := "Rome", departure := "NYC", time := "09:00",
    fare := 300, availableSeats := availableSeats }

/-- Flight 300 to Oslo, fare 410, with a given seat count. -/
def flight300 (availableSeats : Int) : Flight :=
  { flightNumber := 300, destination := "Oslo", departure := "NYC", time := "21:15",
    fare := 410, availableSeats := availableSeats }

/-- An active booking: a passenger aged 30 who paid by credit card. -/
def booking (name pnr : String) (flightNumber seatNumber fare : Int) : Passenger :=
  { name := name, age := 30, gender := 'F', seatNumber := seatNumber, pnr := pnr,
    flightNumber := flightNumber, fare := fare, paymentMethod := 1, isBooked := 1 }

/-- Only a new flight number is entered. -/
def changeFlight (newFlight : Int) : ModifyInput :=
  { ModifyInput.keep with flight := some newFlight }

/-- Only a new age is entered. -/
def changeAge (age : Int) : ModifyInput :=
  { ModifyInput.keep with age := some age }

/-- Seat 5 is booked on flight 100 and on flight 200. -/
def sameSeatOnTwoFlights : State :=
  { flights := some [flight100 99, flight200 99]
    reservations := some [booking "A" "261030042" 100 5 250, booking "B" "261030077" 200 5 300] }

/-- Flights 100 and 200 with one booking on flight 100. -/
def oneBooking : State :=
  { flights := some [flight100 99, flight200 100]
    reservations := some [booking "A" "261030042" 100 5 250] }

/-- Passenger B books seat 7 on flight 100 on 30 October 2026; `rand()` gives 1234. -/
def bookSeat7 : BookInput :=
  { flightNumber := 100, name := "B", age := 41, gender := 'm', seatNumber := 7,
    paymentMethod := 4, tm_year := 126, tm_mon := 9, tm_mday := 30, rnd := 1234 }

/-- The state `bookTicket` leaves when `bookSeat7` is entered in `oneBooking`. -/
def oneBookingThenSeat7 : State :=
  { flights := some [flight100 98, flight200 100]
    reservations := some
      [ booking "A" "261030042" 100 5 250,
        { name := "B", age := 41, gender := 'M', seatNumber := 7, pnr := "261030123",
          flightNumber := 100, fare := 250, paymentMethod := 4, isBooked := 1 } ] }

/-- Two active bookings on flight 100 carry the same PNR; the seat count of
the flight is 100 less the two bookings. -/
def twoBookingsOnePNR : State :=
  { flights := some [flight100 98]
    reservations := some [booking "A" "261030042" 100 5 250, booking "B" "261030042" 100 6 250] }

/-- A booking on flight 100 is followed in the file by a booking on flight 300. -/
def bookingFollowedByAnother : State :=
  { flights := some [flight100 99, flight200 100, flight300 99]
    reservations := some [booking "A" "261030042" 100 5 250, booking "B" "261030077" 300 6 410] }

/-- A new flight 100 as entered at the prompts of `addFlight`. -/
def paris100 : FlightInput :=
  { flightNumber := 100, destination := "Paris", departure := "NYC", time := "14:30", fare := 250 }

/-- Flight number 100 entered again, with other details. -/
def lima100 : FlightInput :=
  { flightNumber := 100, destination := "Lima", departure := "Quito", time := "06:05", fare := 90 }

/-- Only a character is entered at the gender prompt. -/
def changeGender (c : Char) : ModifyInput :=
  { ModifyInput.keep with gender := some c }

/-- Two bookings with different PNRs, then a cancelled record and an active
one that share a PNR with the first. -/
def mixedLedger : State :=
  { flights := some [flight100 97, flight200 100]
    reservations := some
      [ booking "A" "261030042" 100 5 250,
        booking "B" "261030077" 100 6 250,
        { booking "C" "261030042" 100 8 250 with isBooked := 0 },
        booking "D" "261030042" 100 9 250 ] }

/-! ## The sum in `updateFlightSeats` -/

/-- The wrapped sum of two `int` values passes the guard of
`updateFlightSeats` exactly when the integer sum is in `[0, 100]`, and is then
equal to it, when the count is in `[0, 100]` or `delta` is `1` or `-1`, the
only values the program passes. -/
theorem updateFlightSeats_guard_wraparound (seats delta : Int)
    (hseats : -2147483648 ≤ seats ∧ seats ≤ 2147483647)
    (hdelta : -2147483648 ≤ delta ∧ delta ≤ 2147483647)
    (h : (0 ≤ seats ∧ seats ≤ 100) ∨ delta = 1 ∨ delta = -1) :
    ((0 ≤ wrapInt32 (seats + delta) ∧ wrapInt32 (seats + delta) ≤ 100) ↔
      (0 ≤ seats + delta ∧ seats + delta ≤ 100)) ∧
    (0 ≤ seats + delta ∧ seats + delta ≤ 100 → wrapInt32 (seats + delta) = seats + delta) := by
  unfold wrapInt32
  constructor
  · constructor <;> intro hw <;> omega
  · intro hw
    omega

/-! ## Seat uniqueness -/

theorem isSeatAvailableLoop_true (f s : Int) (rs : List Passenger)
    (h : isSeatAvailableLoop f s rs = true) :
    ∀ p ∈ rs, ¬ (p.flightNumber = f ∧ p.seatNumber = s ∧ p.isBooked ≠ 0) := by
  induction rs with
  | nil => simp
  | cons q rest ih =>
    intro p hp
    by_cases hq : q.flightNumber = f ∧ q.seatNumber = s ∧ q.isBooked ≠ 0
    · simp [isSeatAvailableLoop, hq] at h
    · simp only [isSeatAvailableLoop, hq, if_false] at h
      rcases List.mem_cons.mp hp with rfl | hmem
      · exact hq
      · exact ih h p hmem

theorem isSeatAvailable_true (file : Option (List Passenger)) (f s : Int)
    (h : isSeatAvailable file f s = true) :
    ∀ p ∈ records file, ¬ (p.flightNumber = f ∧ p.seatNumber = s ∧ p.isBooked ≠ 0) := by
  unfold isSeatAvailable at h
  split at h
  · simp at h
  · cases file with
    | none => simp [records]
    | some rs => simpa [records] using isSeatAvailableLoop_true f s rs h

/-- The book half of seat uniqueness: a booking that `bookTicket` makes keeps
the seats of the active records of every flight distinct. -/
theorem bookTicket_keeps_seats_distinct (st st1 : State) (inp : BookInput)
    (hinv : SeatsDistinct (records st.reservations))
    (hbook : bookTicket st inp = some st1) :
    SeatsDistinct (records st1.reservations) := by
  unfold bookTicket at hbook
  simp only [Option.bind_eq_some, safeIntInput] at hbook
  obtain ⟨f, hf, hbook⟩ := hbook
  split at hbook
  · simp only [Option.some.injEq] at hbook
    subst hbook
    exact hinv
  · simp only [Option.bind_eq_some] at hbook
    obtain ⟨age, -, gender, -, seat, -, hbook⟩ := hbook
    split at hbook
    · simp at hbook
    · rename_i havail
      simp only [Option.bind_eq_some] at hbook
      obtain ⟨pay, -, hbook⟩ := hbook
      simp only [Option.some.injEq] at hbook
      subst hbook
      have hfree := isSeatAvailable_true st.reservations f seat (by simpa using havail)
      simp only [records, Option.getD_some]
      rw [SeatsDistinct, List.pairwise_append]
      refine ⟨hinv, List.pairwise_singleton _ _, ?_⟩
      intro a ha b hb
      simp only [List.mem_singleton] at hb
      subst hb
      intro hcon
      exact hfree a ha ⟨hcon.2.2.1, hcon.2.2.2, hcon.1⟩

/-- C1, at a failing input. Seat 5 is booked on flight 100 (PNR 261030042) and
on flight 200, the seats of each flight are distinct and flight 200 is valid;
`modifyReservation` with only the flight changed to 200 moves the first
booking to flight 200 with its seat 5, so afterwards two active records on
flight 200 have seat 5. -/
theorem modifyReservation_flight_change_reuses_taken_seat :
    SeatsDistinct (records sameSeatOnTwoFlights.reservations) ∧
    isFlightValid sameSeatOnTwoFlights.flights 200 = true ∧
    (modifyReservation sameSeatOnTwoFlights "261030042" [changeFlight 200]).2.reservations
      = some [booking "A" "261030042" 200 5 300, booking "B" "261030077" 200 5 300] ∧
    ¬ SeatsDistinct
      (records (modifyReservation sameSeatOnTwoFlights "261030042" [changeFlight 200]).2.reservations) := by
  decide

/-! ## The seat count stays in range -/

theorem wrapInt32_of_fits (x : Int) (h : -2147483648 ≤ x ∧ x ≤ 2147483647) :
    wrapInt32 x = x := by
  unfold wrapInt32
  omega

theorem updateFlightSeatsLoop_hit (n delta : Int) (x : Flight) (rest : List Flight)
    (hx : x.flightNumber = n)
    (h : 0 ≤ wrapInt32 (x.availableSeats + delta) ∧ wrapInt32 (x.availableSeats + delta) ≤ 100) :
    updateFlightSeatsLoop n delta (x :: rest)
      = (true, { x with availableSeats := wrapInt32 (x.availableSeats + delta) } :: rest) := by
  have h2 : wrapInt32 (x.availableSeats + delta) ≥ 0 ∧
      wrapInt32 (x.availableSeats + delta) ≤ MAX_SEATS := h
  rw [updateFlightSeatsLoop, if_pos hx]
  exact if_pos h2

theorem updateFlightSeatsLoop_refused (n delta : Int) (x : Flight) (rest : List Flight)
    (hx : x.flightNumber = n)
    (h : ¬ (0 ≤ wrapInt32 (x.availableSeats + delta) ∧
      wrapInt32 (x.availableSeats + delta) ≤ 100)) :
    updateFlightSeatsLoop n delta (x :: rest) = (false, x :: rest) := by
  have h2 : ¬ (wrapInt32 (x.availableSeats + delta) ≥ 0 ∧
      wrapInt32 (x.availableSeats + delta) ≤ MAX_SEATS) := h
  rw [updateFlightSeatsLoop, if_pos hx]
  exact if_neg h2

theorem updateFlightSeatsLoop_miss (n delta : Int) (x : Flight) (rest : List Flight)
    (hx : x.flightNumber ≠ n) :
    updateFlightSeatsLoop n delta (x :: rest)
      = ((updateFlightSeatsLoop n delta rest).1, x :: (updateFlightSeatsLoop n delta rest).2) := by
  rw [updateFlightSeatsLoop, if_neg hx]

theorem updateFlightSeatsLoop_range (n delta : Int) (fs : List Flight)
    (h : ∀ fl ∈ fs, 0 ≤ fl.availableSeats ∧ fl.availableSeats ≤ 100) :
    ∀ fl ∈ (updateFlightSeatsLoop n delta fs).2,
      0 ≤ fl.availableSeats ∧ fl.availableSeats ≤ 100 := by
  induction fs with
  | nil => simp [updateFlightSeatsLoop]
  | cons x rest ih =>
    have hx := h x (List.mem_cons_self x rest)
    have hrest : ∀ fl ∈ rest, 0 ≤ fl.availableSeats ∧ fl.availableSeats ≤ 100 :=
      fun fl hfl => h fl (List.mem_cons_of_mem x hfl)
    intro fl hfl
    by_cases hn : x.flightNumber = n
    · by_cases hnew : 0 ≤ wrapInt32 (x.availableSeats + delta) ∧
          wrapInt32 (x.availableSeats + delta) ≤ 100
      · rw [updateFlightSeatsLoop_hit n delta x rest hn hnew] at hfl
        rcases List.mem_cons.mp hfl with rfl | hmem
        · exact hnew
        · exact hrest fl hmem
      · rw [updateFlightSeatsLoop_refused n delta x rest hn hnew] at hfl
        exact h fl hfl
    · rw [updateFlightSeatsLoop_miss n delta x rest hn] at hfl
      rcases List.mem_cons.mp hfl with rfl | hmem
      · exact hx
      · exact ih hrest fl hmem

theorem updateFlightSeats_range (file : Option (List Flight)) (n delta : Int)
    (h : SeatsInRange file) : SeatsInRange (updateFlightSeats file n delta).2 := by
  cases file with
  | none => simpa [updateFlightSeats] using h
  | some fs =>
    simpa [updateFlightSeats, SeatsInRange, records] using
      updateFlightSeatsLoop_range n delta fs (by simpa [SeatsInRange, records] using h)

/-- C2. When every flight on file has `availableSeats` in `[0, 100]`, every
flight still has after any finite sequence of `updateFlightSeats` calls, with
any flight numbers and any deltas. -/
theorem updateFlightSeatsCalls_keeps_range (file : Option (List Flight))
    (calls : List (Int × Int)) (h : SeatsInRange file) :
    SeatsInRange (updateFlightSeatsCalls file calls) := by
  induction calls generalizing file with
  | nil => simpa [updateFlightSeatsCalls] using h
  | cons call rest ih =>
    have hstep := updateFlightSeats_range file call.1 call.2 h
    simpa [updateFlightSeatsCalls] using ih _ hstep

theorem updateFlightSeatsCalls_keeps_range_witness :
    SeatsInRange (some [flight100 100, flight200 0]) ∧
    updateFlightSeatsCalls (some [flight100 100, flight200 0])
      [(100, 1), (200, -1), (100, -3), (200, 2147483647), (300, 5), (200, 40)]
      = some [flight100 97, flight200 40] ∧
    SeatsInRange (updateFlightSeatsCalls (some [flight100 100, flight200 0])
      [(100, 1), (200, -1), (100, -3), (200, 2147483647), (300, 5), (200, 40)]) :=
  ⟨by decide, by decide,
    updateFlightSeatsCalls_keeps_range (some [flight100 100, flight200 0])
      [(100, 1), (200, -1), (100, -3), (200, 2147483647), (300, 5), (200, 40)] (by decide)⟩

/-! ## Booking, then cancelling -/

theorem isFlightValidLoop_mem (n : Int) (fs : List Flight)
    (h : isFlightValidLoop n fs = true) : n ∈ fs.map Flight.flightNumber := by
  induction fs with
  | nil => simp [isFlightValidLoop] at h
  | cons x rest ih =>
    by_cases hx : x.flightNumber = n
    · simp [hx]
    · have : ¬ (x.flightNumber = n ∧ x.availableSeats > 0) := fun hc => hx hc.1
      simp only [isFlightValidLoop, this, if_false] at h
      simp [ih h]

/-- With unique flight numbers a valid flight is on file with a positive count. -/
theorem isFlightValidLoop_seatsOf (n : Int) (fs : List Flight)
    (huniq : (fs.map Flight.flightNumber).Nodup)
    (h : isFlightValidLoop n fs = true) :
    ∃ a, seatsOfLoop n fs = some a ∧ 0 < a := by
  induction fs with
  | nil => simp [isFlightValidLoop] at h
  | cons x rest ih =>
    simp only [List.map_cons, List.nodup_cons] at huniq
    by_cases hx : x.flightNumber = n
    · by_cases hpos : x.availableSeats > 0
      · exact ⟨x.availableSeats, by simp [seatsOfLoop, hx], hpos⟩
      · have : ¬ (x.flightNumber = n ∧ x.availableSeats > 0) := fun hc => hpos hc.2
        simp only [isFlightValidLoop, this, if_false] at h
        exact absurd (hx ▸ isFlightValidLoop_mem n rest h) huniq.1
    · have : ¬ (x.flightNumber = n ∧ x.availableSeats > 0) := fun hc => hx hc.1
      simp only [isFlightValidLoop, this, if_false] at h
      obtain ⟨a, ha, hpos⟩ := ih huniq.2 h
      exact ⟨a, by simp [seatsOfLoop, hx, ha], hpos⟩

/-- Taking one seat of the flight and giving it back restores the file, when
the count of the flight is in `[1, 100]`. -/
theorem updateFlightSeatsLoop_take_give (n : Int) (fs : List Flight)
    (h : ∀ a, seatsOfLoop n fs = some a → 0 < a ∧ a ≤ 100) :
    (updateFlightSeatsLoop n 1 (updateFlightSeatsLoop n (-1) fs).2).2 = fs := by
  induction fs with
  | nil => simp [updateFlightSeatsLoop]
  | cons x rest ih =>
    by_cases hx : x.flightNumber = n
    · have ha := h x.availableSeats (by simp [seatsOfLoop, hx])
      have hw : wrapInt32 (x.availableSeats + -1) = x.availableSeats + -1 :=
        wrapInt32_of_fits _ (by omega)
      have hw2 : wrapInt32 (x.availableSeats + -1 + 1) = x.availableSeats :=
        (wrapInt32_of_fits _ (by omega)).trans (by omega)
      rw [updateFlightSeatsLoop_hit n (-1) x rest hx (by rw [hw]; omega), hw]
      dsimp only
      have hback := updateFlightSeatsLoop_hit n 1
        { x with availableSeats := x.availableSeats + -1 } rest hx
        (by
          show 0 ≤ wrapInt32 (x.availableSeats + -1 + 1) ∧
            wrapInt32 (x.availableSeats + -1 + 1) ≤ 100
          rw [hw2]
          omega)
      rw [hback]
      show { x with availableSeats := wrapInt32 (x.availableSeats + -1 + 1) } :: rest = x :: rest
      rw [hw2]
    · have hrest : ∀ a, seatsOfLoop n rest = some a → 0 < a ∧ a ≤ 100 := by
        intro a ha
        exact h a (by simp [seatsOfLoop, hx, ha])
      rw [updateFlightSeatsLoop_miss n (-1) x rest hx]
      dsimp only
      rw [updateFlightSeatsLoop_miss n 1 x _ hx, ih hrest]

theorem cancelLoop_append (P : String) (xs ys : List Passenger) (s : CancelLoop) :
    cancelLoop P (xs ++ ys) s = cancelLoop P ys (cancelLoop P xs s) := by
  induction xs generalizing s with
  | nil => rfl
  | cons x rest ih =>
    simp only [List.cons_append, cancelLoop]
    split <;> exact ih _

theorem cancelLoop_hit (P : String) (p : Passenger) (s : CancelLoop)
    (hp : p.pnr = P ∧ p.isBooked ≠ 0) :
    cancelLoop P [p] s
      = { found := true, cancelledFlight := p.flightNumber,
          temp := s.temp ++ [{ p with isBooked := 0 }] } := by
  simp only [cancelLoop]
  rw [if_pos hp]

theorem updateFlightSeats_take_give (file : Option (List Flight)) (n : Int)
    (h : ∀ a, seatsOf file n = some a → 0 < a ∧ a ≤ 100) :
    (updateFlightSeats (updateFlightSeats file n (-1)).2 n 1).2 = file := by
  cases file with
  | none => rfl
  | some fs =>
    simp only [updateFlightSeats]
    rw [updateFlightSeatsLoop_take_give n fs (by simpa [seatsOf, records] using h)]

theorem isFlightValid_seatsOf (file : Option (List Flight)) (n : Int)
    (huniq : UniqueFlightNumbers file) (h : isFlightValid file n = true) :
    ∃ a, seatsOf file n = some a ∧ 0 < a := by
  cases file with
  | none => simp [isFlightValid] at h
  | some fs =>
    simpa [seatsOf, records] using
      isFlightValidLoop_seatsOf n fs (by simpa [UniqueFlightNumbers, records] using huniq) h

/-- What `bookTicket` returns for a valid flight: the state with the record
appended and the seat count updated. -/
theorem bookTicket_eq_some (st st1 : State) (inp : BookInput)
    (hvalid : isFlightValid st.flights inp.flightNumber = true)
    (hbook : bookTicket st inp = some st1) :
    (1 ≤ inp.flightNumber ∧ inp.flightNumber ≤ 999999) ∧
    isSeatAvailable st.reservations inp.flightNumber inp.seatNumber = true ∧
    ∃ p : Passenger,
      p.pnr = generatePNR inp.tm_year inp.tm_mon inp.tm_mday inp.rnd ∧
      p.flightNumber = inp.flightNumber ∧ p.seatNumber = inp.seatNumber ∧ p.isBooked = 1 ∧
      st1 = { flights := (updateFlightSeats st.flights inp.flightNumber (-1)).2
              reservations := some (records st.reservations ++ [p]) } := by
  unfold bookTicket at hbook
  simp only [Option.bind_eq_some, safeIntInput] at hbook
  obtain ⟨f, hf, hbook⟩ := hbook
  split at hf
  · rename_i hrange
    simp only [Option.some.injEq] at hf
    subst hf
    rw [if_neg (by simp [hvalid])] at hbook
    simp only [Option.bind_eq_some] at hbook
    obtain ⟨age, -, gender, -, seat, hs, hbook⟩ := hbook
    split at hs
    · simp only [Option.some.injEq] at hs
      subst hs
      split at hbook
      · simp at hbook
      · rename_i havail
        simp only [Option.bind_eq_some] at hbook
        obtain ⟨pay, -, hbook⟩ := hbook
        simp only [Option.some.injEq] at hbook
        refine ⟨⟨hrange.1, hrange.2⟩, by simpa using havail, _, ?_, ?_, ?_, ?_, hbook.symm⟩ <;> rfl
    · simp at hs
  · simp at hf

theorem seatsOfLoop_mem (n : Int) (fs : List Flight) (a : Int)
    (h : seatsOfLoop n fs = some a) :
    ∃ fl ∈ fs, fl.flightNumber = n ∧ fl.availableSeats = a := by
  induction fs with
  | nil => simp [seatsOfLoop] at h
  | cons x rest ih =>
    by_cases hx : x.flightNumber = n
    · simp only [seatsOfLoop, if_pos hx, Option.some.injEq] at h
      exact ⟨x, List.mem_cons_self x rest, hx, h⟩
    · simp only [seatsOfLoop, if_neg hx] at h
      obtain ⟨fl, hfl, hn, ha⟩ := ih h
      exact ⟨fl, List.mem_cons_of_mem x hfl, hn, ha⟩

theorem seatsOf_range (file : Option (List Flight)) (n a : Int)
    (hrange : SeatsInRange file) (h : seatsOf file n = some a) : 0 ≤ a ∧ a ≤ 100 := by
  obtain ⟨fl, hfl, -, ha⟩ := seatsOfLoop_mem n (records file) a h
  rw [← ha]
  exact hrange fl hfl

/-- C3. In every state of the data model (flight numbers unique, every seat
count in `[0, 100]`) with a valid flight `f` and a seat available on it: after
`bookTicket` books the seat with PNR `P`, `cancelReservation` of `P` finds the
booking and leaves `availableSeats` of `f` at its value before the booking. -/
theorem book_then_cancel_restores_seats (st st1 : State) (inp : BookInput)
    (huniq : UniqueFlightNumbers st.flights)
    (hrange : SeatsInRange st.flights)
    (hvalid : isFlightValid st.flights inp.flightNumber = true)
    (_hseat : isSeatAvailable st.reservations inp.flightNumber inp.seatNumber = true)
    (hbook : bookTicket st inp = some st1) :
    (cancelReservation st1 (generatePNR inp.tm_year inp.tm_mon inp.tm_mday inp.rnd)).1 = true ∧
    seatsOf (cancelReservation st1
        (generatePNR inp.tm_year inp.tm_mon inp.tm_mday inp.rnd)).2.flights inp.flightNumber
      = seatsOf st.flights inp.flightNumber := by
  obtain ⟨hrange2, -, p, hpnr, hpf, -, hpb, hst1⟩ := bookTicket_eq_some st st1 inp hvalid hbook
  obtain ⟨a, ha, hpos⟩ := isFlightValid_seatsOf st.flights inp.flightNumber huniq hvalid
  have hgive := updateFlightSeats_take_give st.flights inp.flightNumber (by
    intro b hb
    have hb2 := seatsOf_range st.flights inp.flightNumber b hrange hb
    rw [ha] at hb
    simp only [Option.some.injEq] at hb
    subst hb
    exact ⟨hpos, hb2.2⟩)
  have hmatch : p.pnr = generatePNR inp.tm_year inp.tm_mon inp.tm_mday inp.rnd ∧ p.isBooked ≠ 0 :=
    ⟨hpnr, by rw [hpb]; decide⟩
  have hne : inp.flightNumber ≠ -1 := by omega
  subst hst1
  simp only [cancelReservation, cancelLoop_append, cancelLoop_hit _ p _ hmatch, if_true,
    hpf, if_pos hne, hgive, and_self]

theorem book_then_cancel_restores_seats_witness :
    bookTicket oneBooking bookSeat7 = some oneBookingThenSeat7 ∧
    seatsOf oneBooking.flights 100 = some 99 ∧
    seatsOf oneBookingThenSeat7.flights 100 = some 98 ∧
    (cancelReservation oneBookingThenSeat7 (generatePNR 126 9 30 1234)).1 = true ∧
    seatsOf (cancelReservation oneBookingThenSeat7 (generatePNR 126 9 30 1234)).2.flights 100
      = seatsOf oneBooking.flights 100 :=
  ⟨by decide, by decide, by decide,
    book_then_cancel_restores_seats oneBooking oneBookingThenSeat7 bookSeat7 (by decide)
      (by decide) (by decide) (by decide) (by decide)⟩

/-! ## Cancelling twice -/

theorem cancelLoop_temp (P : String) (rs : List Passenger) (s : CancelLoop) :
    (cancelLoop P rs s).temp = s.temp ++ rs.map (cancelRecord P) := by
  induction rs generalizing s with
  | nil => simp [cancelLoop]
  | cons x rest ih =>
    by_cases hx : x.pnr = P ∧ x.isBooked ≠ 0
    · simp only [cancelLoop, if_pos hx, ih, cancelRecord, List.map_cons, List.append_assoc,
        List.singleton_append]
    · simp only [cancelLoop, if_neg hx, ih, cancelRecord, List.map_cons, List.append_assoc,
        List.singleton_append]

theorem cancelLoop_no_match (P : String) (rs : List Passenger) (s : CancelLoop)
    (h : ∀ p ∈ rs, ¬ (p.pnr = P ∧ p.isBooked ≠ 0)) :
    cancelLoop P rs s = { s with temp := s.temp ++ rs } := by
  induction rs generalizing s with
  | nil => simp [cancelLoop]
  | cons x rest ih =>
    have hx := h x (List.mem_cons_self x rest)
    simp only [cancelLoop, if_neg hx]
    rw [ih _ (fun p hp => h p (List.mem_cons_of_mem x hp))]
    simp

theorem cancelRecord_not_active (P : String) (p : Passenger) :
    ¬ ((cancelRecord P p).pnr = P ∧ (cancelRecord P p).isBooked ≠ 0) := by
  unfold cancelRecord
  split
  · simp
  · assumption

/-- C4. After one `cancelReservation` of a PNR, a second one of the same PNR
finds no booking (returns false) and leaves the reservation file and the
flight file exactly as the first left them. -/
theorem cancelReservation_twice (st : State) (P : String) :
    cancelReservation (cancelReservation st P).2 P = (false, (cancelReservation st P).2) := by
  cases hrs : st.reservations with
  | none =>
    have h1 : cancelReservation st P = (false, st) := by simp [cancelReservation, hrs]
    rw [h1]
    exact h1
  | some rs =>
    by_cases hfound :
        (cancelLoop P rs { found := false, cancelledFlight := -1, temp := [] }).found = true
    · have hclean : ∀ p ∈ (cancelLoop P rs
          { found := false, cancelledFlight := -1, temp := [] }).temp,
          ¬ (p.pnr = P ∧ p.isBooked ≠ 0) := by
        intro p hp
        rw [cancelLoop_temp] at hp
        simp only [List.nil_append, List.mem_map] at hp
        obtain ⟨q, -, rfl⟩ := hp
        exact cancelRecord_not_active P q
      simp only [cancelReservation, hrs, hfound, if_true]
      rw [cancelLoop_no_match P _ _ hclean]
      simp
    · have h1 : cancelReservation st P = (false, st) := by
        simp [cancelReservation, hrs, hfound]
      rw [h1]
      exact h1

/-! ## The contract of `updateFlightSeats` -/

theorem updateFlightSeatsLoop_absent (n delta : Int) (fs : List Flight)
    (h : ∀ x ∈ fs, x.flightNumber ≠ n) :
    updateFlightSeatsLoop n delta fs = (false, fs) := by
  induction fs with
  | nil => rfl
  | cons x rest ih =>
    rw [updateFlightSeatsLoop_miss n delta x rest (h x (List.mem_cons_self x rest)),
      ih (fun y hy => h y (List.mem_cons_of_mem x hy))]

theorem updateFlightSeatsLoop_first_hit (n delta : Int) (pre : List Flight) (fl : Flight)
    (post : List Flight) (hpre : ∀ x ∈ pre, x.flightNumber ≠ n) (hfl : fl.flightNumber = n)
    (h : 0 ≤ wrapInt32 (fl.availableSeats + delta) ∧
      wrapInt32 (fl.availableSeats + delta) ≤ 100) :
    updateFlightSeatsLoop n delta (pre ++ fl :: post)
      = (true,
          pre ++ { fl with availableSeats := wrapInt32 (fl.availableSeats + delta) } :: post) := by
  induction pre with
  | nil => exact updateFlightSeatsLoop_hit n delta fl post hfl h
  | cons x rest ih =>
    rw [List.cons_append, updateFlightSeatsLoop_miss n delta x _ (hpre x (List.mem_cons_self x rest)),
      ih (fun y hy => hpre y (List.mem_cons_of_mem x hy))]
    rfl

theorem updateFlightSeatsLoop_first_refused (n delta : Int) (pre : List Flight) (fl : Flight)
    (post : List Flight) (hpre : ∀ x ∈ pre, x.flightNumber ≠ n) (hfl : fl.flightNumber = n)
    (h : ¬ (0 ≤ wrapInt32 (fl.availableSeats + delta) ∧
      wrapInt32 (fl.availableSeats + delta) ≤ 100)) :
    updateFlightSeatsLoop n delta (pre ++ fl :: post) = (false, pre ++ fl :: post) := by
  induction pre with
  | nil => exact updateFlightSeatsLoop_refused n delta fl post hfl h
  | cons x rest ih =>
    rw [List.cons_append, updateFlightSeatsLoop_miss n delta x _ (hpre x (List.mem_cons_self x rest)),
      ih (fun y hy => hpre y (List.mem_cons_of_mem x hy))]

/-- A list of flights either has no record with the number, or splits at the
first record with it. -/
theorem first_record_split (n : Int) (fs : List Flight) :
    (∀ x ∈ fs, x.flightNumber ≠ n) ∨
    ∃ pre fl post, fs = pre ++ fl :: post ∧ (∀ x ∈ pre, x.flightNumber ≠ n) ∧
      fl.flightNumber = n := by
  induction fs with
  | nil => left; simp
  | cons x rest ih =>
    by_cases hx : x.flightNumber = n
    · exact Or.inr ⟨[], x, rest, rfl, by simp, hx⟩
    · rcases ih with hno | ⟨pre, fl, post, hsplit, hpre, hfl⟩
      · left
        intro y hy
        rcases List.mem_cons.mp hy with rfl | hmem
        · exact hx
        · exact hno y hmem
      · right
        refine ⟨x :: pre, fl, post, by rw [hsplit]; rfl, ?_, hfl⟩
        intro y hy
        rcases List.mem_cons.mp hy with rfl | hmem
        · exact hx
        · exact hpre y hmem

/-- With unique flight numbers, the records after the first one with a number
do not carry it. -/
theorem unique_after_first (n : Int) (pre : List Flight) (fl : Flight) (post : List Flight)
    (hnodup : ((pre ++ fl :: post).map Flight.flightNumber).Nodup)
    (hfl : fl.flightNumber = n) : ∀ x ∈ post, x.flightNumber ≠ n := by
  intro x hx hn
  simp only [List.map_append, List.map_cons] at hnodup
  have hcons := (List.nodup_append.mp hnodup).2.1
  have hnot := (List.nodup_cons.mp hcons).1
  exact hnot (by rw [hfl, ← hn]; exact List.mem_map_of_mem _ hx)

/-- C5. For every catalog of the data model (flight numbers unique, every
seat count in `[0, 100]`), every flight number `n` and every `int` `delta`,
`updateFlightSeats(n, delta)` returns true exactly when a flight with number
`n` is in the catalog and `0 <= availableSeats + delta <= 100` for it; in that
case the `availableSeats` of that record becomes `availableSeats + delta` and
every other field and record is unchanged; whenever it returns false the
catalog is unchanged. -/
theorem updateFlightSeats_contract (file : Option (List Flight)) (n delta : Int)
    (huniq : UniqueFlightNumbers file) (hrange : SeatsInRange file)
    (hdelta : -2147483648 ≤ delta ∧ delta ≤ 2147483647) :
    ((updateFlightSeats file n delta).1 = true ↔
      ∃ fl ∈ records file, fl.flightNumber = n ∧ 0 ≤ fl.availableSeats + delta ∧
        fl.availableSeats + delta ≤ 100) ∧
    (∀ fl ∈ records file, fl.flightNumber = n → 0 ≤ fl.availableSeats + delta →
      fl.availableSeats + delta ≤ 100 →
      ∃ pre post, file = some (pre ++ fl :: post) ∧
        updateFlightSeats file n delta
          = (true,
              some (pre ++ { fl with availableSeats := fl.availableSeats + delta } :: post))) ∧
    ((updateFlightSeats file n delta).1 = false → (updateFlightSeats file n delta).2 = file) := by
  cases file with
  | none => simp [updateFlightSeats, records]
  | some fs =>
    have hnodup : (fs.map Flight.flightNumber).Nodup := by
      simpa [UniqueFlightNumbers, records] using huniq
    have hfs : ∀ fl ∈ fs, 0 ≤ fl.availableSeats ∧ fl.availableSeats ≤ 100 := by
      simpa [SeatsInRange, records] using hrange
    simp only [records, Option.getD_some]
    rcases first_record_split n fs with hno | ⟨pre, fl0, post, hsplit, hpre, hfl0⟩
    · have hres : updateFlightSeats (some fs) n delta = (false, some fs) := by
        simp only [updateFlightSeats, updateFlightSeatsLoop_absent n delta fs hno]
      rw [hres]
      refine ⟨⟨fun h => by simp at h, ?_⟩, ?_, fun _ => rfl⟩
      · rintro ⟨fl, hfl, hn, -⟩
        exact absurd hn (hno fl hfl)
      · intro fl hfl hn
        exact absurd hn (hno fl hfl)
    · subst hsplit
      have hpost := unique_after_first n pre fl0 post hnodup hfl0
      have hsame : ∀ fl ∈ pre ++ fl0 :: post, fl.flightNumber = n → fl = fl0 := by
        intro fl hfl hn
        rcases List.mem_append.mp hfl with h | h
        · exact absurd hn (hpre fl h)
        · rcases List.mem_cons.mp h with h | h
          · exact h
          · exact absurd hn (hpost fl h)
      have h0 := hfs fl0 (List.mem_append_right _ (List.mem_cons_self _ _))
      have hguard := updateFlightSeats_guard_wraparound fl0.availableSeats delta
        (by omega) hdelta (Or.inl h0)
      by_cases hr : 0 ≤ fl0.availableSeats + delta ∧ fl0.availableSeats + delta ≤ 100
      · have hres : updateFlightSeats (some (pre ++ fl0 :: post)) n delta
            = (true, some (pre ++
                { fl0 with availableSeats := fl0.availableSeats + delta } :: post)) := by
          simp only [updateFlightSeats,
            updateFlightSeatsLoop_first_hit n delta pre fl0 post hpre hfl0 (hguard.1.mpr hr),
            hguard.2 hr]
        rw [hres]
        refine ⟨⟨fun _ => ⟨fl0, List.mem_append_right _ (List.mem_cons_self _ _), hfl0, hr.1,
          hr.2⟩, fun _ => rfl⟩, ?_, fun h => by simp at h⟩
        intro fl hfl hn _ _
        have he := hsame fl hfl hn
        subst he
        exact ⟨pre, post, rfl, rfl⟩
      · have hres : updateFlightSeats (some (pre ++ fl0 :: post)) n delta
            = (false, some (pre ++ fl0 :: post)) := by
          simp only [updateFlightSeats,
            updateFlightSeatsLoop_first_refused n delta pre fl0 post hpre hfl0
              (fun hw => hr (hguard.1.mp hw))]
        rw [hres]
        refine ⟨⟨fun h => by simp at h, ?_⟩, ?_, fun _ => rfl⟩
        · rintro ⟨fl, hfl, hn, h1, h2⟩
          have he := hsame fl hfl hn
          subst he
          exact absurd ⟨h1, h2⟩ hr
        · intro fl hfl hn h1 h2
          have he := hsame fl hfl hn
          subst he
          exact absurd ⟨h1, h2⟩ hr

theorem updateFlightSeats_contract_witness :
    ((updateFlightSeats (some [flight100 99, flight200 100, flight300 7]) 200 (-3)).1 = true ↔
      ∃ fl ∈ records (some [flight100 99, flight200 100, flight300 7]),
        fl.flightNumber = 200 ∧ 0 ≤ fl.availableSeats + -3 ∧ fl.availableSeats + -3 ≤ 100) ∧
    updateFlightSeats (some [flight100 99, flight200 100, flight300 7]) 200 (-3)
      = (true, some [flight100 99, flight200 97, flight300 7]) ∧
    updateFlightSeats (some [flight100 99, flight200 100, flight300 7]) 200 1
      = (false, some [flight100 99, flight200 100, flight300 7]) ∧
    updateFlightSeats (some [flight100 99, flight200 100, flight300 7]) 400 1
      = (false, some [flight100 99, flight200 100, flight300 7]) ∧
    updateFlightSeats (some [flight100 99, flight200 100, flight300 7]) 300 2147483647
      = (false, some [flight100 99, flight200 100, flight300 7]) :=
  ⟨(updateFlightSeats_contract (some [flight100 99, flight200 100, flight300 7]) 200 (-3)
      (by decide) (by decide) (by decide)).1,
    by decide, by decide, by decide, by decide⟩

/-! ## Cancelling releases seats -/

/-- C6, at a failing input. Flight 100 has 98 seats left and two active
bookings, which carry the same PNR. `cancelReservation` of that PNR marks
both records cancelled and raises the seat count once, to 99, although no
active booking is left on the flight. -/
theorem cancelReservation_two_bookings_one_seat :
    UniqueFlightNumbers twoBookingsOnePNR.flights ∧
    seatsOf twoBookingsOnePNR.flights 100
      = some (100 - (activeBookings twoBookingsOnePNR.reservations 100 : Int)) ∧
    cancelReservation twoBookingsOnePNR "261030042"
      = (true,
          { flights := some [flight100 99]
            reservations := some
              [ { booking "A" "261030042" 100 5 250 with isBooked := 0 },
                { booking "B" "261030042" 100 6 250 with isBooked := 0 } ] }) ∧
    activeBookings (cancelReservation twoBookingsOnePNR "261030042").2.reservations 100 = 0 ∧
    seatsOf (cancelReservation twoBookingsOnePNR "261030042").2.flights 100 = some 99 := by
  decide

/-! ## The characterisation of `isSeatAvailable` -/

theorem isSeatAvailableLoop_false_iff (f s : Int) (rs : List Passenger) :
    isSeatAvailableLoop f s rs = false ↔
      ∃ p ∈ rs, p.isBooked ≠ 0 ∧ p.flightNumber = f ∧ p.seatNumber = s := by
  induction rs with
  | nil => simp [isSeatAvailableLoop]
  | cons x rest ih =>
    by_cases hx : x.flightNumber = f ∧ x.seatNumber = s ∧ x.isBooked ≠ 0
    · simp only [isSeatAvailableLoop, if_pos hx, true_iff]
      exact ⟨x, List.mem_cons_self x rest, hx.2.2, hx.1, hx.2.1⟩
    · simp only [isSeatAvailableLoop, if_neg hx, ih, List.mem_cons]
      constructor
      · rintro ⟨p, hp, h⟩
        exact ⟨p, Or.inr hp, h⟩
      · rintro ⟨p, hp | hp, h⟩
        · subst hp
          exact absurd ⟨h.2.1, h.2.2, h.1⟩ hx
        · exact ⟨p, hp, h⟩

/-- C7, as amended. For every reservation file (absent ones included), flight
number `f` and seat number `s`, `isSeatAvailable(f, s)` returns false if and
only if `s` is outside `[1, 100]` or the file holds an active record with
flight `f` and seat `s`. -/
theorem isSeatAvailable_false_iff (file : Option (List Passenger)) (f s : Int) :
    isSeatAvailable file f s = false ↔
      (s < 1 ∨ s > 100) ∨
      ∃ p ∈ records file, p.isBooked ≠ 0 ∧ p.flightNumber = f ∧ p.seatNumber = s := by
  by_cases hs : s < 1 ∨ s > 100
  · have hs2 : s < 1 ∨ s > MAX_SEATS := hs
    simp only [isSeatAvailable, if_pos hs2, hs, true_or]
  · have hs2 : ¬ (s < 1 ∨ s > MAX_SEATS) := hs
    cases file with
    | none => simp [isSeatAvailable, if_neg hs2, hs, records]
    | some rs =>
      simp only [isSeatAvailable, if_neg hs2, hs, false_or, records, Option.getD_some]
      exact isSeatAvailableLoop_false_iff f s rs

/-- C7 as stated fails for a seat number outside `[1, 100]`: with no
reservation file at all `isSeatAvailable(100, 101)` returns false, and no
active record with flight 100 and seat 101 exists. -/
theorem isSeatAvailable_false_without_record :
    isSeatAvailable none 100 101 = false ∧
    ¬ ∃ p ∈ records (none : Option (List Passenger)),
      p.isBooked ≠ 0 ∧ p.flightNumber = 100 ∧ p.seatNumber = 101 := by
  decide

/-! ## Adding a flight -/

theorem flightExistsLoop_iff (n : Int) (fs : List Flight) :
    flightExistsLoop n fs = true ↔ ∃ fl ∈ fs, fl.flightNumber = n := by
  induction fs with
  | nil => simp [flightExistsLoop]
  | cons x rest ih =>
    by_cases hx : x.flightNumber = n
    · simp [flightExistsLoop, hx]
    · simp [flightExistsLoop, hx, ih]

theorem addFlight_fresh (file : Option (List Flight)) (inp : FlightInput)
    (h : ∀ fl ∈ records file, fl.flightNumber ≠ inp.flightNumber) :
    addFlight file inp
      = (true, some (records file ++
          [{ flightNumber := inp.flightNumber
             destination := safeStringInput MAX_DEST_LEN inp.destination
             departure := safeStringInput MAX_DEST_LEN inp.departure
             time := safeStringInput MAX_TIME_LEN inp.time
             fare := inp.fare
             availableSeats := 100 }])) := by
  have hno : ¬ (flightExistsLoop inp.flightNumber (records file) = true) := by
    rw [flightExistsLoop_iff]
    rintro ⟨fl, hfl, hn⟩
    exact h fl hfl hn
  simp only [addFlight, if_neg hno, MAX_SEATS]

theorem addFlight_duplicate (file : Option (List Flight)) (inp : FlightInput)
    (h : ∃ fl ∈ records file, fl.flightNumber = inp.flightNumber) :
    addFlight file inp = (false, file) := by
  have hyes : flightExistsLoop inp.flightNumber (records file) = true :=
    (flightExistsLoop_iff _ _).mpr h
  simp only [addFlight, if_pos hyes]

/-- C8. `addFlight` with a number some record already has (whatever its seat
count) fails and leaves the flight file unchanged; with a new number it
appends one record with that number and `availableSeats = 100` after the
existing records. So unique flight numbers stay unique, and entering the
same number twice into an empty file leaves exactly one record for it, for
which `isFlightValid` is true. -/
theorem addFlight_rejects_duplicates (file : Option (List Flight)) (inp : FlightInput) :
    ((∃ fl ∈ records file, fl.flightNumber = inp.flightNumber) →
      addFlight file inp = (false, file)) ∧
    ((∀ fl ∈ records file, fl.flightNumber ≠ inp.flightNumber) →
      ∃ fl : Flight, fl.flightNumber = inp.flightNumber ∧ fl.availableSeats = 100 ∧
        fl.fare = inp.fare ∧ addFlight file inp = (true, some (records file ++ [fl]))) ∧
    (UniqueFlightNumbers file → UniqueFlightNumbers (addFlight file inp).2) ∧
    (∀ again : FlightInput, again.flightNumber = inp.flightNumber → records file = [] →
      (addFlight (addFlight file inp).2 again).1 = false ∧
      (recordsNumbered (addFlight (addFlight file inp).2 again).2 inp.flightNumber).length = 1 ∧
      isFlightValid (addFlight (addFlight file inp).2 again).2 inp.flightNumber = true) := by
  refine ⟨addFlight_duplicate file inp, ?_, ?_, ?_⟩
  · intro h
    exact ⟨_, rfl, rfl, rfl, addFlight_fresh file inp h⟩
  · intro huniq
    by_cases h : ∃ fl ∈ records file, fl.flightNumber = inp.flightNumber
    · rw [addFlight_duplicate file inp h]
      exact huniq
    · have hfresh : ∀ fl ∈ records file, fl.flightNumber ≠ inp.flightNumber :=
        fun fl hfl hn => h ⟨fl, hfl, hn⟩
      rw [addFlight_fresh file inp hfresh]
      simp only [UniqueFlightNumbers, records, Option.getD_some, List.map_append, List.map_cons,
        List.map_nil]
      rw [List.nodup_append]
      refine ⟨huniq, List.nodup_singleton _, ?_⟩
      intro a ha hb
      simp only [List.mem_singleton] at hb
      subst hb
      obtain ⟨fl, hfl, hn⟩ := List.mem_map.mp ha
      exact hfresh fl hfl hn
  · intro again hsame hempty
    have hfresh : ∀ fl ∈ records file, fl.flightNumber ≠ inp.flightNumber := by
      rw [hempty]
      simp
    rw [addFlight_fresh file inp hfresh, hempty]
    have hdup : addFlight (some ([] ++
        [{ flightNumber := inp.flightNumber
           destination := safeStringInput MAX_DEST_LEN inp.destination
           departure := safeStringInput MAX_DEST_LEN inp.departure
           time := safeStringInput MAX_TIME_LEN inp.time
           fare := inp.fare
           availableSeats := 100 }])) again = (false, some ([] ++
        [{ flightNumber := inp.flightNumber
           destination := safeStringInput MAX_DEST_LEN inp.destination
           departure := safeStringInput MAX_DEST_LEN inp.departure
           time := safeStringInput MAX_TIME_LEN inp.time
           fare := inp.fare
           availableSeats := 100 }])) :=
      addFlight_duplicate _ again
        ⟨{ flightNumber := inp.flightNumber
           destination := safeStringInput MAX_DEST_LEN inp.destination
           departure := safeStringInput MAX_DEST_LEN inp.departure
           time := safeStringInput MAX_TIME_LEN inp.time
           fare := inp.fare
           availableSeats := 100 }, by simp [records], hsame.symm⟩
    rw [hdup]
    simp [recordsNumbered, records, isFlightValid, isFlightValidLoop]

theorem addFlight_rejects_duplicates_witness :
    addFlight (some [flight200 0]) paris100 = (true, some [flight200 0, flight100 100]) ∧
    addFlight (some [flight200 0, flight100 0]) lima100 = (false, some [flight200 0, flight100 0]) ∧
    UniqueFlightNumbers (addFlight (some [flight200 0]) paris100).2 ∧
    ((addFlight (addFlight none paris100).2 lima100).1 = false ∧
      (recordsNumbered (addFlight (addFlight none paris100).2 lima100).2 100).length = 1 ∧
      isFlightValid (addFlight (addFlight none paris100).2 lima100).2 100 = true) :=
  ⟨by decide,
    (addFlight_rejects_duplicates (some [flight200 0, flight100 0]) lima100).1 (by decide),
    (addFlight_rejects_duplicates (some [flight200 0]) paris100).2.2.1 (by decide),
    (addFlight_rejects_duplicates none paris100).2.2.2 lima100 rfl rfl⟩

/-! ## Modifying a reservation -/

/-- C9, at a failing input. Booking A (PNR 261030042) on flight 100 is
followed in the file by a booking on flight 300; flight numbers are unique,
flight 200 is valid, and every seat count is 100 less the active bookings.
`modifyReservation` with only the flight changed to 200 moves booking A to
flight 200 with the fare of flight 200, and then compares the old flight with
the flight of the record read last: flight 100 gains a seat, flight 200 keeps
its 100 seats, and flight 300 loses one. -/
theorem modifyReservation_takes_seat_from_last_record :
    UniqueFlightNumbers bookingFollowedByAnother.flights ∧
    isFlightValid bookingFollowedByAnother.flights 200 = true ∧
    modifyReservation bookingFollowedByAnother "261030042" [changeFlight 200]
      = (true,
          { flights := some [flight100 100, flight200 100, flight300 98]
            reservations := some
              [booking "A" "261030042" 200 5 300, booking "B" "261030077" 300 6 410] }) ∧
    getFlightFare bookingFollowedByAnother.flights 200 = 300 := by
  decide

/-- The age `modifyReservation` leaves in a matching record: the entered value
when it is in `[1, 120]`, the seat number of the record when it is not, the
old age when the line is left empty. -/
theorem modifyRecord_age (st : State) (inp : ModifyInput) (p : Passenger) :
    (modifyRecord st inp p).p.age =
      match inp.age with
      | none => p.age
      | some value => if value < 1 ∨ value > 120 then p.seatNumber else value := by
  have hpay : ∀ (i : Option Int) (v : ModifyVars), (modifyPayment i v).p.age = v.p.age := by
    intro i v
    cases i with
    | none => rfl
    | some x => simp only [modifyPayment]; split <;> rfl
  have hseat : ∀ (i : Option Int) (v : ModifyVars), (modifySeat st i v).p.age = v.p.age := by
    intro i v
    cases i with
    | none => rfl
    | some x => simp only [modifySeat]; split <;> rfl
  have hflight : ∀ (i : Option Int) (v : ModifyVars), (modifyFlight st i v).p.age = v.p.age := by
    intro i v
    cases i with
    | none => rfl
    | some x => simp only [modifyFlight]; split <;> rfl
  have hgender : ∀ (i : Option Char) (v : ModifyVars), (modifyGender i v).p.age = v.p.age := by
    intro i v
    cases i <;> rfl
  have hname : ∀ (i : Option String) (v : ModifyVars),
      (modifyName i v).p.age = v.p.age ∧ (modifyName i v).oldSeat = v.oldSeat := by
    intro i v
    cases i <;> exact ⟨rfl, rfl⟩
  rw [modifyRecord, hpay, hseat, hflight, hgender]
  cases hage : inp.age with
  | none => simp only [modifyAge, hname]
  | some value =>
    simp only [modifyAge]
    split
    · simp only [hname]
    · rfl

/-- C10, at a failing input. The booking has age 30 and seat 5; when 150 is
entered at the age prompt of `modifyReservation`, the record is written with
age 5, its seat number. -/
theorem modifyReservation_invalid_age_stores_seat_number :
    records oneBooking.reservations = [booking "A" "261030042" 100 5 250] ∧
    (booking "A" "261030042" 100 5 250).age = 30 ∧
    modifyReservation oneBooking "261030042" [changeAge 150]
      = (true,
          { flights := oneBooking.flights
            reservations := some [{ booking "A" "261030042" 100 5 250 with age := 5 }] }) := by
  decide

/-- The gender `modifyReservation` leaves in a matching record: the
upper-cased character entered, whatever it is, or the old gender when the
line is left empty. -/
theorem modifyRecord_gender (st : State) (inp : ModifyInput) (p : Passenger) :
    (modifyRecord st inp p).p.gender =
      match inp.gender with
      | none => p.gender
      | some c => c.toUpper := by
  have hpay : ∀ (i : Option Int) (v : ModifyVars), (modifyPayment i v).p.gender = v.p.gender := by
    intro i v
    cases i with
    | none => rfl
    | some x => simp only [modifyPayment]; split <;> rfl
  have hseat : ∀ (i : Option Int) (v : ModifyVars),
      (modifySeat st i v).p.gender = v.p.gender := by
    intro i v
    cases i with
    | none => rfl
    | some x => simp only [modifySeat]; split <;> rfl
  have hflight : ∀ (i : Option Int) (v : ModifyVars),
      (modifyFlight st i v).p.gender = v.p.gender := by
    intro i v
    cases i with
    | none => rfl
    | some x => simp only [modifyFlight]; split <;> rfl
  have hage : ∀ (i : Option Int) (v : ModifyVars), (modifyAge i v).p.gender = v.p.gender := by
    intro i v
    cases i with
    | none => rfl
    | some x => simp only [modifyAge]; split <;> rfl
  have hname : ∀ (i : Option String) (v : ModifyVars), (modifyName i v).p.gender = v.p.gender := by
    intro i v
    cases i <;> rfl
  rw [modifyRecord, hpay, hseat, hflight]
  cases hg : inp.gender with
  | none => simp only [modifyGender, hage, hname]
  | some c => simp only [modifyGender]

/-- C11, at a failing input. The booking has gender `F`; when `x` is entered
at the gender prompt of `modifyReservation` (upper-cased: `X`, neither `M`
nor `F`), the record is written with gender `X`. -/
theorem modifyReservation_invalid_gender_is_stored :
    records oneBooking.reservations = [booking "A" "261030042" 100 5 250] ∧
    (booking "A" "261030042" 100 5 250).gender = 'F' ∧
    ('x'.toUpper ≠ 'M' ∧ 'x'.toUpper ≠ 'F') ∧
    modifyReservation oneBooking "261030042" [changeGender 'x']
      = (true,
          { flights := oneBooking.flights
            reservations := some [{ booking "A" "261030042" 100 5 250 with gender := 'X' }] }) := by
  decide

/-- C15, at a failing input. Booking A (PNR 261030042) on flight 100 is
followed in the file by a booking on flight 300. `modifyReservation` of that
PNR with every line left empty keeps booking A on flight 100 and leaves the
reservation file as it was, and then compares the flight of booking A with
the flight of the record read last: flight 100 gains a seat and flight 300
loses one. -/
theorem modifyReservation_no_change_moves_seats :
    modifyReservation bookingFollowedByAnother "261030042" [ModifyInput.keep]
      = (true,
          { flights := some [flight100 100, flight200 100, flight300 98]
            reservations := bookingFollowedByAnother.reservations }) ∧
    bookingFollowedByAnother.flights = some [flight100 99, flight200 100, flight300 99] := by
  decide

theorem modifyLoop_no_match (st : State) (P : String) (rs : List Passenger)
    (inputs : List ModifyInput) (s : ModifyLoop)
    (h : ∀ p ∈ rs, ¬ (p.pnr = P ∧ p.isBooked ≠ 0)) :
    (modifyLoop st P rs inputs s).found = s.found := by
  induction rs generalizing s with
  | nil => rfl
  | cons x rest ih =>
    have hx := h x (List.mem_cons_self x rest)
    simp only [modifyLoop, if_neg hx]
    rw [ih _ (fun p hp => h p (List.mem_cons_of_mem x hp))]

/-- When no active record has the PNR, `modifyReservation` finds nothing and
changes neither file. -/
theorem modifyReservation_not_found (st : State) (P : String) (inputs : List ModifyInput)
    (h : ∀ p ∈ records st.reservations, ¬ (p.pnr = P ∧ p.isBooked ≠ 0)) :
    modifyReservation st P inputs = (false, st) := by
  cases hrs : st.reservations with
  | none => simp [modifyReservation, hrs]
  | some rs =>
    have hno := modifyLoop_no_match st P rs inputs
      { found := false, oldFlight := -1, oldSeat := -1, p := Passenger.unread, temp := [] }
      (by simpa [hrs, records] using h)
    simp only [modifyReservation, hrs, hno]
    simp

/-! ## Cancelling changes nothing else -/

theorem cancelLoop_found (P : String) (rs : List Passenger) (s : CancelLoop)
    (h : ∃ p ∈ rs, p.pnr = P ∧ p.isBooked ≠ 0) :
    (cancelLoop P rs s).found = true := by
  induction rs generalizing s with
  | nil => simp at h
  | cons x rest ih =>
    by_cases hx : x.pnr = P ∧ x.isBooked ≠ 0
    · by_cases hrest : ∃ p ∈ rest, p.pnr = P ∧ p.isBooked ≠ 0
      · simp only [cancelLoop, if_pos hx]
        exact ih _ hrest
      · have hnone : ∀ p ∈ rest, ¬ (p.pnr = P ∧ p.isBooked ≠ 0) :=
          fun p hp hm => hrest ⟨p, hp, hm⟩
        simp only [cancelLoop, if_pos hx]
        rw [cancelLoop_no_match P rest _ hnone]
    · simp only [cancelLoop, if_neg hx]
      apply ih
      obtain ⟨p, hp, hm⟩ := h
      rcases List.mem_cons.mp hp with rfl | hmem
      · exact absurd hm hx
      · exact ⟨p, hmem, hm⟩

theorem generateBillLoop_none (P : String) (rs : List Passenger)
    (h : ∀ p ∈ rs, ¬ (p.pnr = P ∧ p.isBooked ≠ 0)) :
    generateBillLoop P rs = none := by
  induction rs with
  | nil => rfl
  | cons x rest ih =>
    simp only [generateBillLoop, if_neg (h x (List.mem_cons_self x rest))]
    exact ih (fun p hp => h p (List.mem_cons_of_mem x hp))

/-- C12. When no active record has the PNR, `cancelReservation` returns false
and leaves the reservation file unchanged. Otherwise it returns true and the
file holds the same records in the same order, each as it was except that an
active record with the PNR has `isBooked` cleared, its other fields kept.
Afterwards no active record with the PNR is on file, and `generateBill` of
the PNR finds nothing. -/
theorem cancelReservation_keeps_other_data (st : State) (P : String) :
    ((∀ p ∈ records st.reservations, ¬ (p.pnr = P ∧ p.isBooked ≠ 0)) →
      cancelReservation st P = (false, st)) ∧
    ((∃ p ∈ records st.reservations, p.pnr = P ∧ p.isBooked ≠ 0) →
      (cancelReservation st P).1 = true ∧
      (cancelReservation st P).2.reservations
        = some ((records st.reservations).map fun p =>
            if p.pnr = P ∧ p.isBooked ≠ 0 then { p with isBooked := 0 } else p)) ∧
    (∀ p ∈ records (cancelReservation st P).2.reservations, ¬ (p.pnr = P ∧ p.isBooked ≠ 0)) ∧
    generateBill (cancelReservation st P).2.reservations P = none := by
  have hnone : (∀ p ∈ records st.reservations, ¬ (p.pnr = P ∧ p.isBooked ≠ 0)) →
      cancelReservation st P = (false, st) := by
    intro h
    cases hrs : st.reservations with
    | none => simp [cancelReservation, hrs]
    | some rs =>
      have hloop := cancelLoop_no_match P rs
        { found := false, cancelledFlight := -1, temp := [] }
        (by simpa [hrs, records] using h)
      simp only [cancelReservation, hrs, hloop]
      simp
  have hsome : (∃ p ∈ records st.reservations, p.pnr = P ∧ p.isBooked ≠ 0) →
      (cancelReservation st P).1 = true ∧
      (cancelReservation st P).2.reservations
        = some ((records st.reservations).map fun p =>
            if p.pnr = P ∧ p.isBooked ≠ 0 then { p with isBooked := 0 } else p) := by
    intro h
    cases hrs : st.reservations with
    | none => simp [hrs, records] at h
    | some rs =>
      have hfound := cancelLoop_found P rs
        { found := false, cancelledFlight := -1, temp := [] }
        (by simpa [hrs, records] using h)
      have htemp := cancelLoop_temp P rs { found := false, cancelledFlight := -1, temp := [] }
      simp only [cancelReservation, hrs, hfound, if_true, htemp, List.nil_append, records,
        Option.getD_some, true_and]
      rfl
  have hclean : ∀ p ∈ records (cancelReservation st P).2.reservations,
      ¬ (p.pnr = P ∧ p.isBooked ≠ 0) := by
    by_cases h : ∃ p ∈ records st.reservations, p.pnr = P ∧ p.isBooked ≠ 0
    · rw [(hsome h).2]
      intro p hp
      simp only [records, Option.getD_some, List.mem_map] at hp
      obtain ⟨q, -, rfl⟩ := hp
      exact cancelRecord_not_active P q
    · have hno : ∀ p ∈ records st.reservations, ¬ (p.pnr = P ∧ p.isBooked ≠ 0) :=
        fun p hp hm => h ⟨p, hp, hm⟩
      rw [hnone hno]
      exact hno
  refine ⟨hnone, hsome, hclean, ?_⟩
  cases hres : (cancelReservation st P).2.reservations with
  | none => rfl
  | some rs =>
    rw [hres] at hclean
    exact generateBillLoop_none P rs (by simpa [records] using hclean)

theorem cancelReservation_keeps_other_data_witness :
    cancelReservation mixedLedger "261030099" = (false, mixedLedger) ∧
    ((cancelReservation mixedLedger "261030042").1 = true ∧
      (cancelReservation mixedLedger "261030042").2.reservations
        = some
          [ { booking "A" "261030042" 100 5 250 with isBooked := 0 },
            booking "B" "261030077" 100 6 250,
            { booking "C" "261030042" 100 8 250 with isBooked := 0 },
            { booking "D" "261030042" 100 9 250 with isBooked := 0 } ]) ∧
    generateBill (cancelReservation mixedLedger "261030042").2.reservations "261030042" = none :=
  ⟨(cancelReservation_keeps_other_data mixedLedger "261030099").1 (by decide),
    (cancelReservation_keeps_other_data mixedLedger "261030042").2.1 (by decide),
    (cancelReservation_keeps_other_data mixedLedger "261030042").2.2.2⟩

/-! ## The PNR -/

theorem formatZeroPadded_length (width value : Nat) :
    width ≤ (formatZeroPadded width value).length := by
  simp only [formatZeroPadded, List.length_append, List.length_replicate]
  omega

/-- The PNR has `PNR_LEN` characters, whatever the date and the random value
are. -/
theorem generatePNR_length (tm_year tm_mon tm_mday rnd : Nat) :
    (generatePNR tm_year tm_mon tm_mday rnd).length = 9 := by
  have h1 := formatZeroPadded_length 2 (tm_year % 100)
  have h2 := formatZeroPadded_length 2 (tm_mon + 1)
  have h3 := formatZeroPadded_length 2 tm_mday
  have h4 := formatZeroPadded_length 4 (rnd % 10000)
  simp only [generatePNR, String.length, List.length_take, List.length_append, PNR_LEN]
  omega

/-- C13, at a failing input. On 30 October 2026 (`tm_year` 126, `tm_mon` 9)
the text formatted for the random value 1230 is `2610301230`, ten characters;
`generatePNR` keeps the first nine, so the random values 1230 and 1231 give
the same PNR `261030123`, which ends in three digits, not four. -/
theorem generatePNR_drops_last_digit :
    String.mk (formatZeroPadded 2 (126 % 100) ++ formatZeroPadded 2 (9 + 1)
      ++ formatZeroPadded 2 30 ++ formatZeroPadded 4 (1230 % 10000)) = "2610301230" ∧
    generatePNR 126 9 30 1230 = "261030123" ∧
    generatePNR 126 9 30 1231 = "261030123" ∧
    (generatePNR 126 9 30 1230).length = 9 := by
  decide

/-! ## What a booking does -/

theorem seatsOfLoop_first (n : Int) (pre : List Flight) (fl : Flight) (post : List Flight)
    (hpre : ∀ x ∈ pre, x.flightNumber ≠ n) (hfl : fl.flightNumber = n) :
    seatsOfLoop n (pre ++ fl :: post) = some fl.availableSeats := by
  induction pre with
  | nil => simp [seatsOfLoop, hfl]
  | cons x rest ih =>
    have hx := hpre x (List.mem_cons_self x rest)
    simp only [List.cons_append, seatsOfLoop, if_neg hx]
    exact ih (fun y hy => hpre y (List.mem_cons_of_mem x hy))

theorem isSeatAvailable_true_range (file : Option (List Passenger)) (f s : Int)
    (h : isSeatAvailable file f s = true) : 1 ≤ s ∧ s ≤ 100 := by
  unfold isSeatAvailable at h
  split at h
  · simp at h
  · rename_i hs
    simp only [MAX_SEATS] at hs
    omega

/-- For input the prompts accept, a valid flight and an available seat,
`bookTicket` returns with the record appended and the seat count updated. -/
theorem bookTicket_books (st : State) (inp : BookInput)
    (hflight : 1 ≤ inp.flightNumber ∧ inp.flightNumber ≤ 999999)
    (hage : 1 ≤ inp.age ∧ inp.age ≤ 120)
    (hgender : inp.gender.toUpper = 'M' ∨ inp.gender.toUpper = 'F')
    (hpay : 1 ≤ inp.paymentMethod ∧ inp.paymentMethod ≤ 4)
    (hvalid : isFlightValid st.flights inp.flightNumber = true)
    (hseat : isSeatAvailable st.reservations inp.flightNumber inp.seatNumber = true) :
    bookTicket st inp = some
      { flights := (updateFlightSeats st.flights inp.flightNumber (-1)).2
        reservations := some (records st.reservations ++
          [newPassenger (getFlightFare st.flights inp.flightNumber) inp.flightNumber inp.age
            inp.gender.toUpper inp.seatNumber inp.paymentMethod inp]) } := by
  have hs := isSeatAvailable_true_range _ _ _ hseat
  have e1 : safeIntInput 1 999999 inp.flightNumber = some inp.flightNumber := by
    simp only [safeIntInput]
    rw [if_pos ⟨hflight.1, hflight.2⟩]
  have e2 : safeIntInput 1 120 inp.age = some inp.age := by
    simp only [safeIntInput]
    rw [if_pos ⟨hage.1, hage.2⟩]
  have e3 : genderInput inp.gender = some inp.gender.toUpper := by
    simp only [genderInput]
    rw [if_pos hgender]
  have e4 : safeIntInput 1 MAX_SEATS inp.seatNumber = some inp.seatNumber := by
    simp only [safeIntInput, MAX_SEATS]
    rw [if_pos ⟨hs.1, hs.2⟩]
  have e5 : safeIntInput 1 4 inp.paymentMethod = some inp.paymentMethod := by
    simp only [safeIntInput]
    rw [if_pos ⟨hpay.1, hpay.2⟩]
  simp only [bookTicket, e1, e2, e3, e4, e5, Option.some_bind, hvalid, hseat]
  simp

/-- A booking that `bookTicket` makes on a valid flight was entered with
input the prompts accept, for a seat that was available. -/
theorem bookTicket_some_accepts (st st1 : State) (inp : BookInput)
    (hvalid : isFlightValid st.flights inp.flightNumber = true)
    (hbook : bookTicket st inp = some st1) :
    PromptsAccept inp ∧
    isSeatAvailable st.reservations inp.flightNumber inp.seatNumber = true := by
  unfold bookTicket at hbook
  simp only [Option.bind_eq_some, safeIntInput] at hbook
  obtain ⟨f, hf, hbook⟩ := hbook
  split at hf
  · rename_i hfr
    simp only [Option.some.injEq] at hf
    subst hf
    rw [if_neg (by simp [hvalid])] at hbook
    simp only [Option.bind_eq_some] at hbook
    obtain ⟨age, ha, gender, hg, seat, hs, hbook⟩ := hbook
    split at ha
    · rename_i har
      unfold genderInput at hg
      split at hg
      · rename_i hgr
        split at hs
        · simp only [Option.some.injEq] at hs
          subst hs
          split at hbook
          · simp at hbook
          · rename_i havail
            simp only [Option.bind_eq_some] at hbook
            obtain ⟨pay, hp, -⟩ := hbook
            split at hp
            · rename_i hpr
              exact ⟨⟨⟨hfr.1, hfr.2⟩, ⟨har.1, har.2⟩, hgr, ⟨hpr.1, hpr.2⟩⟩, by simpa using havail⟩
            · simp at hp
        · simp at hs
      · simp at hg
    · simp at ha
  · simp at hf

theorem safeStringInput_short (maxLen : Nat) (line : String) (h : line.length ≤ maxLen) :
    safeStringInput maxLen line = line := by
  cases line with
  | mk cs =>
    simp only [String.length] at h
    simp only [safeStringInput, List.take_of_length_le h]

theorem toUpper_of_M_or_F (c : Char) (h : c = 'M' ∨ c = 'F') : c.toUpper = c := by
  rcases h with rfl | rfl <;> decide

/-- C14. In every state of the data model (flight numbers unique, every seat
count in `[0, 100]`) in which flight `f` is valid and seat `s` in `[1, 100]`
is available on it, `bookTicket` returns for every input its prompts accept,
and whenever it returns, exactly one record has been appended to the end of
the reservation file and the records before it are unchanged. The record is
booked, on flight `f`, seat `s`, with the name, age, gender and payment
method supplied, the PNR generated and the fare `getFlightFare(f)`. The
record of flight `f` has `availableSeats` lowered by 1 and no other flight
record changes. Afterwards `isSeatAvailable(f, s)` is false. -/
theorem bookTicket_postcondition (st : State) (inp : BookInput)
    (huniq : UniqueFlightNumbers st.flights)
    (hrange : SeatsInRange st.flights)
    (hvalid : isFlightValid st.flights inp.flightNumber = true)
    (_hseatRange : 1 ≤ inp.seatNumber ∧ inp.seatNumber ≤ 100)
    (hseat : isSeatAvailable st.reservations inp.flightNumber inp.seatNumber = true) :
    (PromptsAccept inp → ∃ st1, bookTicket st inp = some st1) ∧
    ∀ st1, bookTicket st inp = some st1 →
      ∃ (pre : List Flight) (fl : Flight) (post : List Flight) (p : Passenger),
        st.flights = some (pre ++ fl :: post) ∧ fl.flightNumber = inp.flightNumber ∧
        (∀ x ∈ pre ++ post, x.flightNumber ≠ inp.flightNumber) ∧
        st1.flights
          = some (pre ++ { fl with availableSeats := fl.availableSeats - 1 } :: post) ∧
        st1.reservations = some (records st.reservations ++ [p]) ∧
        p.isBooked = 1 ∧ p.flightNumber = inp.flightNumber ∧ p.seatNumber = inp.seatNumber ∧
        p.name = safeStringInput MAX_NAME_LEN inp.name ∧
        (inp.name.length ≤ 49 → p.name = inp.name) ∧
        p.age = inp.age ∧
        p.gender = inp.gender.toUpper ∧
        (inp.gender = 'M' ∨ inp.gender = 'F' → p.gender = inp.gender) ∧
        p.paymentMethod = inp.paymentMethod ∧
        p.pnr = generatePNR inp.tm_year inp.tm_mon inp.tm_mday inp.rnd ∧
        p.fare = getFlightFare st.flights inp.flightNumber ∧
        isSeatAvailable st1.reservations inp.flightNumber inp.seatNumber = false := by
  constructor
  · rintro ⟨hflight, hage, hgender, hpay⟩
    exact ⟨_, bookTicket_books st inp hflight hage hgender hpay hvalid hseat⟩
  · intro st1 hbook1
    obtain ⟨⟨hflight, hage, hgender, hpay⟩, -⟩ := bookTicket_some_accepts st st1 inp hvalid hbook1
    have hbook := bookTicket_books st inp hflight hage hgender hpay hvalid hseat
    rw [hbook] at hbook1
    simp only [Option.some.injEq] at hbook1
    subst hbook1
    cases hfile : st.flights with
    | none => simp [hfile, isFlightValid] at hvalid
    | some fs =>
      rw [hfile] at huniq hvalid hrange
      have hloop : isFlightValidLoop inp.flightNumber fs = true := hvalid
      have hnodup : (fs.map Flight.flightNumber).Nodup := by
        simpa [UniqueFlightNumbers, records] using huniq
      have hfs : ∀ x ∈ fs, 0 ≤ x.availableSeats ∧ x.availableSeats ≤ 100 := by
        simpa [SeatsInRange, records] using hrange
      rcases first_record_split inp.flightNumber fs with hno | ⟨pre, fl, post, hsplit, hpre, hfl⟩
      · obtain ⟨x, hx, hn⟩ := List.mem_map.mp (isFlightValidLoop_mem _ _ hloop)
        exact absurd hn (hno x hx)
      · subst hsplit
        have hseats := seatsOfLoop_first inp.flightNumber pre fl post hpre hfl
        obtain ⟨a, ha, hpos⟩ := isFlightValidLoop_seatsOf _ _ hnodup hloop
        rw [hseats] at ha
        simp only [Option.some.injEq] at ha
        have hle := (hfs fl (List.mem_append_right _ (List.mem_cons_self _ _))).2
        have hpost := unique_after_first inp.flightNumber pre fl post hnodup hfl
        have hw : wrapInt32 (fl.availableSeats + -1) = fl.availableSeats - 1 :=
          (wrapInt32_of_fits _ (by omega)).trans (by omega)
        have hupd := updateFlightSeatsLoop_first_hit inp.flightNumber (-1) pre fl post hpre hfl
          (by rw [hw]; omega)
        rw [hw] at hupd
        refine ⟨pre, fl, post, newPassenger (getFlightFare (some (pre ++ fl :: post))
          inp.flightNumber) inp.flightNumber inp.age inp.gender.toUpper inp.seatNumber
          inp.paymentMethod inp, rfl, hfl, ?_, ?_, rfl, rfl, rfl, rfl, rfl, ?_, rfl, rfl, ?_,
          rfl, rfl, rfl, ?_⟩
        · intro x hx
          rcases List.mem_append.mp hx with h | h
          · exact hpre x h
          · exact hpost x h
        · simp only [updateFlightSeats, hupd]
        · intro hlen
          exact safeStringInput_short MAX_NAME_LEN inp.name hlen
        · intro hg
          exact toUpper_of_M_or_F inp.gender hg
        · have hs := isSeatAvailable_true_range _ _ _ hseat
          have hs2 : ¬ (inp.seatNumber < 1 ∨ inp.seatNumber > MAX_SEATS) := by
            simp only [MAX_SEATS]
            omega
          simp only [isSeatAvailable, if_neg hs2]
          rw [isSeatAvailableLoop_false_iff]
          exact ⟨_, List.mem_append_right _ (List.mem_singleton_self _), by
            simp [newPassenger]⟩

theorem bookTicket_postcondition_witness :
    PromptsAccept bookSeat7 ∧
    bookTicket oneBooking bookSeat7 = some oneBookingThenSeat7 ∧
    ∃ (pre : List Flight) (fl : Flight) (post : List Flight) (p : Passenger),
      oneBooking.flights = some (pre ++ fl :: post) ∧ fl.flightNumber = bookSeat7.flightNumber ∧
      (∀ x ∈ pre ++ post, x.flightNumber ≠ bookSeat7.flightNumber) ∧
      oneBookingThenSeat7.flights
        = some (pre ++ { fl with availableSeats := fl.availableSeats - 1 } :: post) ∧
      oneBookingThenSeat7.reservations = some (records oneBooking.reservations ++ [p]) ∧
      p.isBooked = 1 ∧ p.flightNumber = bookSeat7.flightNumber ∧
      p.seatNumber = bookSeat7.seatNumber ∧
      p.name = safeStringInput MAX_NAME_LEN bookSeat7.name ∧
      (bookSeat7.name.length ≤ 49 → p.name = bookSeat7.name) ∧
      p.age = bookSeat7.age ∧
      p.gender = bookSeat7.gender.toUpper ∧
      (bookSeat7.gender = 'M' ∨ bookSeat7.gender = 'F' → p.gender = bookSeat7.gender) ∧
      p.paymentMethod = bookSeat7.paymentMethod ∧
      p.pnr = generatePNR bookSeat7.tm_year bookSeat7.tm_mon bookSeat7.tm_mday bookSeat7.rnd ∧
      p.fare = getFlightFare oneBooking.flights bookSeat7.flightNumber ∧
      isSeatAvailable oneBookingThenSeat7.reservations bookSeat7.flightNumber
        bookSeat7.seatNumber = false :=
  ⟨by decide, by decide,
    (bookTicket_postcondition oneBooking bookSeat7 (by decide) (by decide) (by decide)
      (by decide) (by decide)).2 oneBookingThenSeat7 (by decide)⟩

end Plane
